import Mathlib

/-
Verification of the resctrl resource/domain lifecycle engine
(arch/x86/kernel/cpu/resctrl/core.c).

The C code is shallowly embedded: pure computations become Lean functions,
the mutable domain lists become explicit list-valued state threaded through
the operations, hardware accesses (MSR writes, hooks, RCU grace periods)
become explicit event lists, and environment-dependent outcomes (memory
allocation success, topology lookup, hook results) become parameters.
C strings are embedded as `List Char`.
-/

namespace Resctrl

/-! ## Constants (from include/linux/resctrl_types.h, asm/msr-index.h) -/

def MAX_MBA_BW : Nat := 100

def RESCTRL_RESERVED_CLOSID : Nat := 0

def RESCTRL_RESERVED_RMID : Nat := 0

def MSR_IA32_L3_CBM_BASE : Nat := 0xc90

def MSR_IA32_L2_CBM_BASE : Nat := 0xd10

def MSR_IA32_MBA_THRTL_BASE : Nat := 0xd50

/- enum resctrl_scope; a zero-initialised scope field stays 0. -/
def RESCTRL_L2_CACHE : Nat := 2

def RESCTRL_L3_CACHE : Nat := 3

def RESCTRL_L3_NODE : Nat := 4

/- X86 feature flags are opaque integer tags for this model; only their
   distinctness matters.  Listed in rdt_options order. -/
def X86_FEATURE_CQM_OCCUP_LLC : Nat := 0

def X86_FEATURE_CQM_MBM_TOTAL : Nat := 1

def X86_FEATURE_CQM_MBM_LOCAL : Nat := 2

def X86_FEATURE_CAT_L3 : Nat := 3

def X86_FEATURE_CDP_L3 : Nat := 4

def X86_FEATURE_CAT_L2 : Nat := 5

def X86_FEATURE_CDP_L2 : Nat := 6

def X86_FEATURE_MBA : Nat := 7

def X86_FEATURE_SMBA : Nat := 8

def X86_FEATURE_BMEC : Nat := 9

/-! ## Option Override (set_rdt_options / rdt_cpu_has, core.c:718-782) -/

structure RdtOption where
  name : List Char
  flag : Nat
  force_off : Bool
  force_on : Bool
deriving DecidableEq

/- The static rdt_options table (core.c:724-735); both force booleans start
   out false (static storage zero-initialisation). -/
def rdt_options : List RdtOption :=
  [⟨['c', 'm', 't'], X86_FEATURE_CQM_OCCUP_LLC, false, false⟩,
   ⟨['m', 'b', 'm', 't', 'o', 't', 'a', 'l'], X86_FEATURE_CQM_MBM_TOTAL, false, false⟩,
   ⟨['m', 'b', 'm', 'l', 'o', 'c', 'a', 'l'], X86_FEATURE_CQM_MBM_LOCAL, false, false⟩,
   ⟨['l', '3', 'c', 'a', 't'], X86_FEATURE_CAT_L3, false, false⟩,
   ⟨['l', '3', 'c', 'd', 'p'], X86_FEATURE_CDP_L3, false, false⟩,
   ⟨['l', '2', 'c', 'a', 't'], X86_FEATURE_CAT_L2, false, false⟩,
   ⟨['l', '2', 'c', 'd', 'p'], X86_FEATURE_CDP_L2, false, false⟩,
   ⟨['m', 'b', 'a'], X86_FEATURE_MBA, false, false⟩,
   ⟨['s', 'm', 'b', 'a'], X86_FEATURE_SMBA, false, false⟩,
   ⟨['b', 'm', 'e', 'c'], X86_FEATURE_BMEC, false, false⟩]

/- strsep(&str, ",") token stream: split at every comma, empty tokens kept. -/
def splitComma (s : List Char) : List (List Char) :=
  s.foldr
    (fun c acc =>
      match acc with
      | [] => if c = ',' then [[], []] else [[c]]
      | t :: ts => if c = ',' then [] :: t :: ts else (c :: t) :: ts)
    [[]]

/- The inner option-table scan of set_rdt_options: the first entry whose name
   strcmp-matches the token gets its force bit set (then the C loop breaks);
   with no match the table is left untouched. -/
def applyTok (force_off : Bool) (tok : List Char) : List RdtOption → List RdtOption
  | [] => []
  | o :: rest =>
    if o.name = tok then
      (if force_off then { o with force_off := true } else { o with force_on := true }) :: rest
    else
      o :: applyTok force_off tok rest

/- set_rdt_options (core.c:738-761), acting on an explicit option table. -/
def set_rdt_options (str : List Char) (opts : List RdtOption) : List RdtOption :=
  let str := match str with
    | '=' :: rest => rest
    | _ => str
  (splitComma str).foldl
    (fun acc tok =>
      let force_off : Bool := match tok with
        | '!' :: _ => true
        | _ => false
      let tok := if force_off then tok.tail else tok
      applyTok force_off tok acc)
    opts

/- rdt_cpu_has (core.c:764-782).  `bch` stands for boot_cpu_has. -/
def rdt_cpu_has (opts : List RdtOption) (bch : Nat → Bool) (flag : Nat) : Bool :=
  let ret := bch flag
  if ret = false then ret
  else
    match opts.find? (fun o => o.flag == flag) with
    | none => ret
    | some o =>
      let ret := if o.force_off then false else ret
      let ret := if o.force_on then true else ret
      ret

/-! ## Haswell probe (cache_alloc_hsw_probe, core.c:139-162) -/

/- The slice of global state the probe touches. -/
structure HswProbeState where
  num_closid : Nat
  cbm_len : Nat
  shareable_bits : Nat
  min_cbm_bits : Nat
  arch_has_sparse_bitmasks : Bool
  alloc_capable : Bool
  rdt_alloc_capable : Bool
deriving DecidableEq

/- BIT_ULL_MASK(20) - 1: the all-ones 20-bit pattern written to
   MSR_IA32_L3_CBM_BASE. -/
def hsw_max_cbm : Nat := 2 ^ 20 - 1

/- cache_alloc_hsw_probe.  `wrmsr_faults` models wrmsrq_safe returning
   nonzero (the write #GP-faulted), `rdmsr_l3_cbm_0` the value read back
   from the first L3 cache-mask register after the write. -/
def cache_alloc_hsw_probe (wrmsr_faults : Bool) (rdmsr_l3_cbm_0 : Nat)
    (s : HswProbeState) : HswProbeState :=
  if wrmsr_faults then s
  else if rdmsr_l3_cbm_0 ≠ hsw_max_cbm then s
  else
    { num_closid := 4, cbm_len := 20, shareable_bits := 0xc0000, min_cbm_bits := 2,
      arch_has_sparse_bitmasks := false, alloc_capable := true, rdt_alloc_capable := true }

/-! ## Bandwidth delay translation (delay_bw_map, core.c:302-309) -/

/- delay_bw_map returns a u32 delay value; the Bool records whether the
   pr_warn_once one-time warning fired on this call path.  The subtraction is
   the C unsigned subtraction truncated to 32 bits. -/
def delay_bw_map (delay_linear : Bool) (bw : Nat) : Nat × Bool :=
  if delay_linear then
    ((((MAX_MBA_BW : Int) - (bw : Int)) % (2 ^ 32 : Int)).toNat, false)
  else
    (MAX_MBA_BW, true)

/-! ## Static resource table (rdt_resources_all, core.c:57-103) -/

inductive SchemaFmt where
  | bitmap
  | range
deriving DecidableEq

/- Fields of a rdt_resources_all entry that are statically initialised
   (core.c:60-103).  A field the initialiser omits is zero. -/
structure RdtHwResourceEnt where
  name : List Char
  ctrl_scope : Nat
  mon_scope : Nat
  schema_fmt : SchemaFmt
  msr_base : Nat
deriving DecidableEq

def rdt_resources_all : List RdtHwResourceEnt :=
  [⟨['L', '3'], RESCTRL_L3_CACHE, RESCTRL_L3_CACHE, .bitmap, MSR_IA32_L3_CBM_BASE⟩,
   ⟨['L', '2'], RESCTRL_L2_CACHE, 0, .bitmap, MSR_IA32_L2_CBM_BASE⟩,
   ⟨['M', 'B'], RESCTRL_L3_CACHE, 0, .range, 0⟩,
   ⟨['S', 'M', 'B', 'A'], RESCTRL_L3_CACHE, 0, .range, 0⟩]

def RDT_NUM_RESOURCES : Nat := 4

/- resctrl_arch_get_resource (core.c:113-119). -/
def resctrl_arch_get_resource (l : Nat) : Option RdtHwResourceEnt :=
  if RDT_NUM_RESOURCES ≤ l then none
  else rdt_resources_all[l]?

/-! ## Resources as used by the domain registry

A `RdtResource` collects the fields of struct rdt_resource / rdt_hw_resource
that the domain lifecycle code reads, after capability discovery has filled
them in. -/

inductive MsrStrategy where
  | cat
  | mbaIntel
  | mbaAmd
deriving DecidableEq

structure RdtResource where
  num_closid : Nat
  cbm_len : Nat
  max_bw : Nat
  delay_linear : Bool
  schema_fmt : SchemaFmt
  msr_base : Nat
  msr_strategy : MsrStrategy
  num_rmid : Nat
  arch_has_per_cpu_cfg : Bool
deriving DecidableEq

/-- Modelled from the spec: resctrl_get_default_ctrl lives in
include/linux/resctrl.h, outside src/.  Per the spec, the default
"no restriction" quota is all representable bitmask bits set within the
cache's bit-length for a bitmap schema, and 100% of maximum bandwidth for a
range schema. -/
def resctrl_get_default_ctrl (r : RdtResource) : Nat :=
  match r.schema_fmt with
  | .bitmap => 2 ^ r.cbm_len - 1
  | .range => r.max_bw

/- setup_default_ctrlval (core.c:346-358): the loop stores the default into
   every one of the num_closid slots of the fresh array. -/
def setup_default_ctrlval (r : RdtResource) : List Nat :=
  List.replicate r.num_closid (resctrl_get_default_ctrl r)

/-! ## Register Programmer (core.c:287-330)

Each strategy walks indices i in [low, high) and writes one MSR per index;
the result is the list of (msr address, value) writes in issue order. -/

def cat_wrmsr (msr_base : Nat) (ctrl_val : List Nat) (low high : Nat) :
    List (Nat × Nat) :=
  (List.range' low (high - low)).map (fun i => (msr_base + i, ctrl_val.getD i 0))

def mba_wrmsr_intel (msr_base : Nat) (delay_linear : Bool) (ctrl_val : List Nat)
    (low high : Nat) : List (Nat × Nat) :=
  (List.range' low (high - low)).map
    (fun i => (msr_base + i, (delay_bw_map delay_linear (ctrl_val.getD i 0)).1))

def mba_wrmsr_amd (msr_base : Nat) (ctrl_val : List Nat) (low high : Nat) :
    List (Nat × Nat) :=
  (List.range' low (high - low)).map (fun i => (msr_base + i, ctrl_val.getD i 0))

/- hw_res->msr_update dispatch (selected once at init, rdt_init_res_defs). -/
def msr_update (r : RdtResource) (ctrl_val : List Nat) (low high : Nat) :
    List (Nat × Nat) :=
  match r.msr_strategy with
  | .cat => cat_wrmsr r.msr_base ctrl_val low high
  | .mbaIntel => mba_wrmsr_intel r.msr_base r.delay_linear ctrl_val low high
  | .mbaAmd => mba_wrmsr_amd r.msr_base ctrl_val low high

/-! ## Domain Registry (core.c:360-654) -/

/- cpumask operations on a cpu set embedded as a duplicate-free list. -/
def cpumask_set_cpu (cpu : Nat) (m : List Nat) : List Nat :=
  if cpu ∈ m then m else cpu :: m

def cpumask_clear_cpu (cpu : Nat) (m : List Nat) : List Nat :=
  m.filter (fun c => c ≠ cpu)

structure RdtCtrlDomain where
  id : Int
  cpu_mask : List Nat
  ctrl_val : List Nat
  has_plr : Bool
deriving DecidableEq

structure RdtMonDomain where
  id : Int
  ci_id : Nat
  cpu_mask : List Nat
  arch_mbm_total : Option (List Nat)
  arch_mbm_local : Option (List Nat)
deriving DecidableEq

/- Externally visible side effects of the domain lifecycle operations, in
   program order: log warnings, CDP reconfiguration, MSR writes, the
   resctrl online/offline hooks, arch_mon_domain_online, synchronize_rcu
   grace periods, pseudo-lock back-reference clearing and kfree calls. -/
inductive DomEv where
  | warn
  | reconfigureCdp
  | msrWrite (addr v : Nat)
  | onlineCtrlHook (id : Int)
  | offlineCtrlHook (id : Int)
  | archMonOnline (id : Int)
  | onlineMonHook (id : Int)
  | offlineMonHook (id : Int)
  | syncRcu
  | clearPlr (id : Int)
  | freeCtrl (id : Int)
  | freeMon (id : Int)
deriving DecidableEq

/- Replace the first list element satisfying p (the node resctrl_find_domain
   returned) by its updated version; the rest of the list is untouched. -/
def updateFirst (p : α → Bool) (f : α → α) : List α → List α
  | [] => []
  | x :: xs => if p x then f x :: xs else x :: updateFirst p f xs

/-- Modelled from the spec: resctrl_find_domain lives in fs/resctrl, outside
src/.  Per the spec the list is kept ordered by domain identity; insertion at
the add_pos returned for a missing id is ordered insertion. -/
def insertSortedBy (key : α → Int) (d : α) : List α → List α
  | [] => [d]
  | x :: xs => if key d < key x then d :: x :: xs else x :: insertSortedBy key d xs

/- domain_setup_ctrlval (core.c:373-394): on allocation success, the fresh
   ctrl_val array (every slot the default) together with the MSR writes the
   single msr_update invocation over [0, num_closid) issues. -/
def domain_setup_ctrlval (r : RdtResource) (kmalloc_ok : Bool) :
    Option (List Nat × List (Nat × Nat)) :=
  if kmalloc_ok = false then none
  else
    let dc := setup_default_ctrlval r
    some (dc, msr_update r dc 0 r.num_closid)

/- Environment a control-domain add runs in: the cpu→domain-id topology map
   (negative = resolution failure), allocation outcomes, and the
   resctrl_online_ctrl_domain hook result. -/
structure CtrlAddEnv where
  domid : Nat → Int
  kzalloc_ok : Bool
  kmalloc_ok : Bool
  online_ok : Bool

/- domain_add_cpu_ctrl (core.c:439-492). -/
def domain_add_cpu_ctrl (r : RdtResource) (env : CtrlAddEnv) (cpu : Nat)
    (doms : List RdtCtrlDomain) : List RdtCtrlDomain × List DomEv :=
  let id := env.domid cpu
  if id < 0 then (doms, [.warn])
  else
    match doms.find? (fun e => e.id == id) with
    | some _ =>
      (updateFirst (fun e => e.id == id)
         (fun e => { e with cpu_mask := cpumask_set_cpu cpu e.cpu_mask }) doms,
       if r.arch_has_per_cpu_cfg then [.reconfigureCdp] else [])
    | none =>
      if env.kzalloc_ok = false then (doms, [])
      else
        match domain_setup_ctrlval r env.kmalloc_ok with
        | none => (doms, [.reconfigureCdp, .freeCtrl id])
        | some (dc, writes) =>
          let d : RdtCtrlDomain := ⟨id, cpumask_set_cpu cpu [], dc, false⟩
          let doms2 := insertSortedBy (fun e => e.id) d doms
          if env.online_ok then
            (doms2,
             [.reconfigureCdp] ++ writes.map (fun w => .msrWrite w.1 w.2) ++
               [.onlineCtrlHook id])
          else
            (doms2.eraseP (fun e => e.id == id),
             [.reconfigureCdp] ++ writes.map (fun w => .msrWrite w.1 w.2) ++
               [.onlineCtrlHook id, .syncRcu, .freeCtrl id])

/- Environment a monitor-domain add runs in; `ci` is
   get_cpu_cacheinfo_level(cpu, RESCTRL_L3_CACHE) returning the cache
   instance id, the mbm booleans are resctrl_arch_is_mbm_*_enabled. -/
structure MonAddEnv where
  domid : Nat → Int
  kzalloc_ok : Bool
  ci : Nat → Option Nat
  mbm_total_enabled : Bool
  mbm_local_enabled : Bool
  kcalloc_total_ok : Bool
  kcalloc_local_ok : Bool
  online_ok : Bool

/- arch_domain_mbm_alloc (core.c:401-422): per enabled counter kind a
   zeroed array of num_rmid counter slots, failure unwinds to none. -/
def arch_domain_mbm_alloc (num_rmid : Nat) (env : MonAddEnv) :
    Option (Option (List Nat) × Option (List Nat)) :=
  if env.mbm_total_enabled && !env.kcalloc_total_ok then none
  else
    let tot := if env.mbm_total_enabled then some (List.replicate num_rmid 0) else none
    if env.mbm_local_enabled && !env.kcalloc_local_ok then none
    else
      let loc := if env.mbm_local_enabled then some (List.replicate num_rmid 0) else none
      some (tot, loc)

/- domain_add_cpu_mon (core.c:494-553). -/
def domain_add_cpu_mon (r : RdtResource) (env : MonAddEnv) (cpu : Nat)
    (doms : List RdtMonDomain) : List RdtMonDomain × List DomEv :=
  let id := env.domid cpu
  if id < 0 then (doms, [.warn])
  else
    match doms.find? (fun e => e.id == id) with
    | some _ =>
      (updateFirst (fun e => e.id == id)
         (fun e => { e with cpu_mask := cpumask_set_cpu cpu e.cpu_mask }) doms, [])
    | none =>
      if env.kzalloc_ok = false then (doms, [])
      else
        match env.ci cpu with
        | none => (doms, [.warn, .freeMon id])
        | some ci_id =>
          match arch_domain_mbm_alloc r.num_rmid env with
          | none => (doms, [.archMonOnline id, .freeMon id])
          | some (tot, loc) =>
            let d : RdtMonDomain := ⟨id, ci_id, cpumask_set_cpu cpu [], tot, loc⟩
            let doms2 := insertSortedBy (fun e => e.id) d doms
            if env.online_ok then
              (doms2, [.archMonOnline id, .onlineMonHook id])
            else
              (doms2.eraseP (fun e => e.id == id),
               [.archMonOnline id, .onlineMonHook id, .syncRcu, .freeMon id])

/- domain_remove_cpu_ctrl (core.c:563-607). -/
def domain_remove_cpu_ctrl (domid : Nat → Int) (cpu : Nat)
    (doms : List RdtCtrlDomain) : List RdtCtrlDomain × List DomEv :=
  let id := domid cpu
  if id < 0 then (doms, [.warn])
  else
    match doms.find? (fun e => e.id == id) with
    | none => (doms, [.warn])
    | some d =>
      if (cpumask_clear_cpu cpu d.cpu_mask).isEmpty then
        (doms.eraseP (fun e => e.id == id),
         [.offlineCtrlHook id, .syncRcu] ++
           (if d.has_plr then [.clearPlr id] else []) ++ [.freeCtrl id])
      else
        (updateFirst (fun e => e.id == id)
           (fun e => { e with cpu_mask := cpumask_clear_cpu cpu e.cpu_mask }) doms, [])

/- domain_remove_cpu_mon (core.c:609-646). -/
def domain_remove_cpu_mon (domid : Nat → Int) (cpu : Nat)
    (doms : List RdtMonDomain) : List RdtMonDomain × List DomEv :=
  let id := domid cpu
  if id < 0 then (doms, [.warn])
  else
    match doms.find? (fun e => e.id == id) with
    | none => (doms, [.warn])
    | some d =>
      if (cpumask_clear_cpu cpu d.cpu_mask).isEmpty then
        (doms.eraseP (fun e => e.id == id),
         [.offlineMonHook id, .syncRcu, .freeMon id])
      else
        (updateFirst (fun e => e.id == id)
           (fun e => { e with cpu_mask := cpumask_clear_cpu cpu e.cpu_mask }) doms, [])

/- Registry well-formedness: domain identities are unique within a list and
   every linked domain has a non-empty member set. -/
def CtrlWF (doms : List RdtCtrlDomain) : Prop :=
  (doms.map (fun d => d.id)).Nodup ∧ ∀ d ∈ doms, d.cpu_mask ≠ []

def MonWF (doms : List RdtMonDomain) : Prop :=
  (doms.map (fun d => d.id)).Nodup ∧ ∀ d ∈ doms, d.cpu_mask ≠ []

instance : DecidablePred CtrlWF := fun doms => by
  unfold CtrlWF; infer_instance

instance : DecidablePred MonWF := fun doms => by
  unfold MonWF; infer_instance

/-! ## Hotplug Coordinator (core.c:656-697)

The coordinator is embedded as an event-trace semantics over the per-cpu
pqr_state: each step appends the externally visible events it performs. -/

structure ResCap where
  rid : Nat
  alloc_capable : Bool
  mon_capable : Bool
deriving DecidableEq

inductive HpEv where
  | lock
  | unlock
  | addCtrl (rid cpu : Nat)
  | addMon (rid cpu : Nat)
  | removeCtrl (rid cpu : Nat)
  | removeMon (rid cpu : Nat)
  | wrmsrPqr (rmid closid : Nat)
  | onlineHook (cpu : Nat)
  | offlineHook (cpu : Nat)
deriving DecidableEq

def HpEv.isDomainAdd : HpEv → Bool
  | .addCtrl _ _ => true
  | .addMon _ _ => true
  | _ => false

def HpEv.isDomainRemove : HpEv → Bool
  | .removeCtrl _ _ => true
  | .removeMon _ _ => true
  | _ => false

/- struct resctrl_pqr_state (per-cpu tracking state). -/
structure PqrState where
  default_closid : Nat
  default_rmid : Nat
  cur_closid : Nat
  cur_rmid : Nat
deriving DecidableEq

/- clear_closid_rmid (core.c:656-666): reset all four tracking fields to the
   reserved values and write them to the MSR_IA32_PQR_ASSOC register. -/
def clear_closid_rmid (_s : PqrState) : PqrState × List HpEv :=
  (⟨RESCTRL_RESERVED_CLOSID, RESCTRL_RESERVED_RMID,
    RESCTRL_RESERVED_CLOSID, RESCTRL_RESERVED_RMID⟩,
   [.wrmsrPqr RESCTRL_RESERVED_RMID RESCTRL_RESERVED_CLOSID])

def concatMapEv (f : α → List β) : List α → List β
  | [] => []
  | x :: xs => f x ++ concatMapEv f xs

/- domain_add_cpu / domain_remove_cpu (core.c:555-561, 648-654) at trace
   level: ctrl first iff alloc-capable, mon second iff mon-capable. -/
def domain_add_cpu_ev (cpu : Nat) (r : ResCap) : List HpEv :=
  (if r.alloc_capable then [.addCtrl r.rid cpu] else []) ++
    (if r.mon_capable then [.addMon r.rid cpu] else [])

def domain_remove_cpu_ev (cpu : Nat) (r : ResCap) : List HpEv :=
  (if r.alloc_capable then [.removeCtrl r.rid cpu] else []) ++
    (if r.mon_capable then [.removeMon r.rid cpu] else [])

/- for_each_capable_rdt_resource: the resources with either capability. -/
def for_each_capable (rs : List ResCap) : List ResCap :=
  rs.filter (fun r => r.alloc_capable || r.mon_capable)

/- resctrl_arch_online_cpu (core.c:668-681). -/
def resctrl_arch_online_cpu (rs : List ResCap) (cpu : Nat) (s : PqrState) :
    PqrState × List HpEv :=
  let domEvs := [HpEv.lock] ++ concatMapEv (domain_add_cpu_ev cpu) (for_each_capable rs) ++
    [HpEv.unlock]
  let (s2, clearEvs) := clear_closid_rmid s
  (s2, domEvs ++ clearEvs ++ [.onlineHook cpu])

/- resctrl_arch_offline_cpu (core.c:683-697). -/
def resctrl_arch_offline_cpu (rs : List ResCap) (cpu : Nat) (s : PqrState) :
    PqrState × List HpEv :=
  let domEvs := [HpEv.offlineHook cpu, HpEv.lock] ++
    concatMapEv (domain_remove_cpu_ev cpu) (for_each_capable rs) ++ [HpEv.unlock]
  let (s2, clearEvs) := clear_closid_rmid s
  (s2, domEvs ++ clearEvs)

/-! ## Helper lemmas on the list primitives -/

theorem updateFirst_map_eq {α β : Type} {p : α → Bool} {f : α → α} {g : α → β}
    (hf : ∀ x, g (f x) = g x) : ∀ l : List α, (updateFirst p f l).map g = l.map g := by
  intro l
  induction l with
  | nil => rfl
  | cons x xs ih =>
    cases hp : p x <;> simp [updateFirst, hp, hf, ih]

theorem mem_updateFirst_find {α : Type} {p : α → Bool} {f : α → α} :
    ∀ {l : List α} {d y}, l.find? p = some d → y ∈ updateFirst p f l →
      y ∈ l ∨ y = f d := by
  intro l
  induction l with
  | nil => intro d y h; simp at h
  | cons x xs ih =>
    intro d y hfind hy
    cases hp : p x with
    | true =>
      rw [List.find?_cons_of_pos _ hp] at hfind
      unfold updateFirst at hy
      rw [if_pos hp] at hy
      rcases List.mem_cons.mp hy with h | h
      · right; rw [h, Option.some_inj.mp hfind]
      · left; exact List.mem_cons_of_mem _ h
    | false =>
      rw [List.find?_cons_of_neg _ (by simp [hp])] at hfind
      unfold updateFirst at hy
      rw [if_neg (by simp [hp])] at hy
      rcases List.mem_cons.mp hy with h | h
      · left; rw [h]; exact List.mem_cons_self x xs
      · rcases ih hfind h with h' | h'
        · left; exact List.mem_cons_of_mem _ h'
        · right; exact h'

theorem find?_updateFirst_mem {α : Type} {p : α → Bool} {f : α → α} :
    ∀ {l : List α} {d}, l.find? p = some d → f d ∈ updateFirst p f l := by
  intro l
  induction l with
  | nil => intro d h; simp at h
  | cons x xs ih =>
    intro d hfind
    cases hp : p x with
    | true =>
      rw [List.find?_cons_of_pos _ hp] at hfind
      unfold updateFirst
      rw [if_pos hp, Option.some_inj.mp hfind]
      exact List.mem_cons_self _ _
    | false =>
      rw [List.find?_cons_of_neg _ (by simp [hp])] at hfind
      unfold updateFirst
      rw [if_neg (by simp [hp])]
      exact List.mem_cons_of_mem _ (ih hfind)

theorem updateFirst_eq_self {α : Type} {p : α → Bool} {f : α → α} :
    ∀ {l : List α} {d}, l.find? p = some d → f d = d → updateFirst p f l = l := by
  intro l
  induction l with
  | nil => intro d _ _; rfl
  | cons x xs ih =>
    intro d hfind hfd
    cases hp : p x with
    | true =>
      rw [List.find?_cons_of_pos _ hp] at hfind
      unfold updateFirst
      rw [if_pos hp, Option.some_inj.mp hfind, hfd]
    | false =>
      rw [List.find?_cons_of_neg _ (by simp [hp])] at hfind
      unfold updateFirst
      rw [if_neg (by simp [hp]), ih hfind hfd]

theorem forall₂_updateFirst {α : Type} {R : α → α → Prop} {p : α → Bool} {f : α → α}
    (h1 : ∀ x, R x x) (h2 : ∀ x, p x = true → R x (f x)) :
    ∀ l : List α, List.Forall₂ R l (updateFirst p f l) := by
  intro l
  induction l with
  | nil => exact List.Forall₂.nil
  | cons x xs ih =>
    cases hp : p x with
    | true =>
      unfold updateFirst
      rw [if_pos hp]
      exact List.Forall₂.cons (h2 x hp) (List.forall₂_same.mpr (fun y _ => h1 y))
    | false =>
      unfold updateFirst
      rw [if_neg (by simp [hp])]
      exact List.Forall₂.cons (h1 x) ih

theorem insertSortedBy_perm {α : Type} (key : α → Int) (d : α) :
    ∀ l : List α, (insertSortedBy key d l).Perm (d :: l) := by
  intro l
  induction l with
  | nil => exact List.Perm.refl _
  | cons x xs ih =>
    unfold insertSortedBy
    by_cases h : key d < key x
    · rw [if_pos h]
    · rw [if_neg h]
      exact (ih.cons x).trans (List.Perm.swap d x xs)

theorem mem_insertSortedBy {α : Type} {key : α → Int} {d : α} {l : List α} {y : α} :
    y ∈ insertSortedBy key d l ↔ y = d ∨ y ∈ l := by
  rw [(insertSortedBy_perm key d l).mem_iff]
  exact List.mem_cons

theorem eraseP_insertSortedBy {α : Type} {key : α → Int} {p : α → Bool} {d : α}
    (hd : p d = true) :
    ∀ {l : List α}, (∀ e ∈ l, p e = false) → (insertSortedBy key d l).eraseP p = l := by
  intro l
  induction l with
  | nil => intro _; simp [insertSortedBy, hd]
  | cons x xs ih =>
    intro hall
    unfold insertSortedBy
    by_cases h : key d < key x
    · rw [if_pos h, List.eraseP_cons_of_pos hd]
    · rw [if_neg h, List.eraseP_cons_of_neg (by simp [hall x (List.mem_cons_self x xs)]),
        ih (fun e he => hall e (List.mem_cons_of_mem x he))]

theorem eraseP_forall_key {α : Type} {g : α → Int} {k : Int} :
    ∀ {l : List α} {d : α}, (l.map g).Nodup →
      l.find? (fun e => g e == k) = some d →
      ∀ e ∈ l.eraseP (fun e => g e == k), g e ≠ k := by
  intro l
  induction l with
  | nil => intro d _ h; simp at h
  | cons x xs ih =>
    intro d hnd hfind e he
    cases hp : (g x == k) with
    | true =>
      have herase : List.eraseP (fun e => g e == k) (x :: xs) = xs :=
        List.eraseP_cons_of_pos hp
      rw [herase] at he
      intro hek
      have hx : g x = k := by simpa using hp
      have : g x ∈ xs.map g := by
        rw [hx, ← hek]
        exact List.mem_map_of_mem g he
      exact (List.nodup_cons.mp hnd).1 this
    | false =>
      have herase : List.eraseP (fun e => g e == k) (x :: xs) =
          x :: List.eraseP (fun e => g e == k) xs :=
        List.eraseP_cons_of_neg (by simp [hp])
      rw [herase] at he
      rcases List.mem_cons.mp he with h | h
      · rw [h]; simpa using hp
      · rw [List.find?_cons_of_neg _ (by simp [hp])] at hfind
        exact ih (List.nodup_cons.mp hnd).2 hfind e h

theorem cpumask_set_cpu_ne_nil (cpu : Nat) (m : List Nat) :
    cpumask_set_cpu cpu m ≠ [] := by
  unfold cpumask_set_cpu
  by_cases h : cpu ∈ m
  · rw [if_pos h]; exact List.ne_nil_of_mem h
  · rw [if_neg h]; exact List.cons_ne_nil _ _

/- Inserting a fresh identity keeps the id map duplicate-free. -/
theorem nodup_insertSortedBy {α : Type} {d : α} {l : List α} {g : α → Int}
    (hnd : (l.map g).Nodup) (hnew : ∀ e ∈ l, g e ≠ g d) :
    ((insertSortedBy g d l).map g).Nodup := by
  refine (List.Perm.nodup_iff ((insertSortedBy_perm g d l).map g)).mpr ?_
  rw [List.map_cons]
  refine List.nodup_cons.mpr ⟨?_, hnd⟩
  intro hmem
  rcases List.mem_map.mp hmem with ⟨e, he, hge⟩
  exact hnew e he hge

/- Specialisations of updateFirst_map_eq to the two mask-update shapes, so
   rewriting can infer the update function from the goal. -/
theorem updateFirst_map_id_ctrl (p : RdtCtrlDomain → Bool)
    (m : RdtCtrlDomain → List Nat) (l : List RdtCtrlDomain) :
    (updateFirst p (fun e => { e with cpu_mask := m e }) l).map (fun d => d.id) =
      l.map (fun d => d.id) :=
  @updateFirst_map_eq RdtCtrlDomain Int p (fun e => { e with cpu_mask := m e })
    (fun d => d.id) (fun _ => rfl) l

theorem updateFirst_map_id_mon (p : RdtMonDomain → Bool)
    (m : RdtMonDomain → List Nat) (l : List RdtMonDomain) :
    (updateFirst p (fun e => { e with cpu_mask := m e }) l).map (fun d => d.id) =
      l.map (fun d => d.id) :=
  @updateFirst_map_eq RdtMonDomain Int p (fun e => { e with cpu_mask := m e })
    (fun d => d.id) (fun _ => rfl) l

/-! ## Well-formedness preservation by the registry operations -/

theorem domain_add_cpu_ctrl_WF (r : RdtResource) (env : CtrlAddEnv) (cpu : Nat)
    (doms : List RdtCtrlDomain) (hwf : CtrlWF doms) :
    CtrlWF (domain_add_cpu_ctrl r env cpu doms).1 := by
  simp only [domain_add_cpu_ctrl]
  split
  · exact hwf
  · split
    next d hfind =>
      dsimp only
      refine ⟨?_, ?_⟩
      · rw [updateFirst_map_id_ctrl]
        exact hwf.1
      · intro y hy
        rcases mem_updateFirst_find hfind hy with h | h
        · exact hwf.2 y h
        · rw [h]
          show cpumask_set_cpu cpu d.cpu_mask ≠ []
          exact cpumask_set_cpu_ne_nil cpu d.cpu_mask
    next hfind =>
      have hnotin : ∀ e ∈ doms, e.id ≠ env.domid cpu := by
        intro e he heq
        exact List.find?_eq_none.mp hfind e he (by simp [heq])
      split
      · exact hwf
      · split
        next hsetup => exact hwf
        next dc writes hsetup =>
          split
          · dsimp only
            refine ⟨nodup_insertSortedBy hwf.1 hnotin, ?_⟩
            intro y hy
            rcases mem_insertSortedBy.mp hy with h | h
            · rw [h]
              show cpumask_set_cpu cpu [] ≠ []
              exact cpumask_set_cpu_ne_nil cpu []
            · exact hwf.2 y h
          · dsimp only
            rw [eraseP_insertSortedBy (by simp)
              (fun e he => by simpa using hnotin e he)]
            exact hwf

theorem domain_add_cpu_mon_WF (r : RdtResource) (env : MonAddEnv) (cpu : Nat)
    (doms : List RdtMonDomain) (hwf : MonWF doms) :
    MonWF (domain_add_cpu_mon r env cpu doms).1 := by
  simp only [domain_add_cpu_mon]
  split
  · exact hwf
  · split
    next d hfind =>
      dsimp only
      refine ⟨?_, ?_⟩
      · rw [updateFirst_map_id_mon]
        exact hwf.1
      · intro y hy
        rcases mem_updateFirst_find hfind hy with h | h
        · exact hwf.2 y h
        · rw [h]
          show cpumask_set_cpu cpu d.cpu_mask ≠ []
          exact cpumask_set_cpu_ne_nil cpu d.cpu_mask
    next hfind =>
      have hnotin : ∀ e ∈ doms, e.id ≠ env.domid cpu := by
        intro e he heq
        exact List.find?_eq_none.mp hfind e he (by simp [heq])
      split
      · exact hwf
      · split
        next hci => exact hwf
        next ci_id hci =>
          split
          next hmbm => exact hwf
          next tot loc hmbm =>
            split
            · dsimp only
              refine ⟨nodup_insertSortedBy hwf.1 hnotin, ?_⟩
              intro y hy
              rcases mem_insertSortedBy.mp hy with h | h
              · rw [h]
                show cpumask_set_cpu cpu [] ≠ []
                exact cpumask_set_cpu_ne_nil cpu []
              · exact hwf.2 y h
            · dsimp only
              rw [eraseP_insertSortedBy (by simp)
                (fun e he => by simpa using hnotin e he)]
              exact hwf

theorem domain_remove_cpu_ctrl_WF (domid : Nat → Int) (cpu : Nat)
    (doms : List RdtCtrlDomain) (hwf : CtrlWF doms) :
    CtrlWF (domain_remove_cpu_ctrl domid cpu doms).1 := by
  simp only [domain_remove_cpu_ctrl]
  split
  · exact hwf
  · split
    next hfind => exact hwf
    next d hfind =>
      split
      · dsimp only
        refine ⟨?_, ?_⟩
        · exact ((List.eraseP_sublist doms).map (fun e => e.id)).nodup hwf.1
        · intro y hy
          exact hwf.2 y ((List.eraseP_sublist doms).subset hy)
      next hne =>
        dsimp only
        refine ⟨?_, ?_⟩
        · rw [updateFirst_map_id_ctrl]
          exact hwf.1
        · intro y hy
          rcases mem_updateFirst_find hfind hy with h | h
          · exact hwf.2 y h
          · rw [h]
            show cpumask_clear_cpu cpu d.cpu_mask ≠ []
            intro hnil
            exact hne (by simp [hnil])

theorem domain_remove_cpu_mon_WF (domid : Nat → Int) (cpu : Nat)
    (doms : List RdtMonDomain) (hwf : MonWF doms) :
    MonWF (domain_remove_cpu_mon domid cpu doms).1 := by
  simp only [domain_remove_cpu_mon]
  split
  · exact hwf
  · split
    next hfind => exact hwf
    next d hfind =>
      split
      · dsimp only
        refine ⟨?_, ?_⟩
        · exact ((List.eraseP_sublist doms).map (fun e => e.id)).nodup hwf.1
        · intro y hy
          exact hwf.2 y ((List.eraseP_sublist doms).subset hy)
      next hne =>
        dsimp only
        refine ⟨?_, ?_⟩
        · rw [updateFirst_map_id_mon]
          exact hwf.1
        · intro y hy
          rcases mem_updateFirst_find hfind hy with h | h
          · exact hwf.2 y h
          · rw [h]
            show cpumask_clear_cpu cpu d.cpu_mask ≠ []
            intro hnil
            exact hne (by simp [hnil])

/-! ## Behaviour of removal on a linked domain -/

theorem domain_remove_cpu_ctrl_found (domid : Nat → Int) (cpu : Nat)
    (doms : List RdtCtrlDomain) (d : RdtCtrlDomain)
    (hwf : CtrlWF doms) (hid : 0 ≤ domid cpu)
    (hfind : doms.find? (fun e => e.id == domid cpu) = some d) :
    (cpumask_clear_cpu cpu d.cpu_mask ≠ [] →
      { d with cpu_mask := cpumask_clear_cpu cpu d.cpu_mask } ∈
        (domain_remove_cpu_ctrl domid cpu doms).1) ∧
    (cpumask_clear_cpu cpu d.cpu_mask = [] →
      (∀ e ∈ (domain_remove_cpu_ctrl domid cpu doms).1, e.id ≠ d.id) ∧
      (domain_remove_cpu_ctrl domid cpu doms).2 =
        [.offlineCtrlHook (domid cpu), .syncRcu] ++
          (if d.has_plr then [.clearPlr (domid cpu)] else []) ++
          [.freeCtrl (domid cpu)]) := by
  have hd : d.id = domid cpu := by
    have h := List.find?_some hfind
    simpa using h
  simp only [domain_remove_cpu_ctrl]
  rw [if_neg (not_lt.mpr hid), hfind]
  dsimp only
  constructor
  · intro hne
    rw [if_neg (by simp [hne])]
    dsimp only
    exact find?_updateFirst_mem hfind
  · intro hnil
    rw [if_pos (by simp [hnil])]
    dsimp only
    refine ⟨?_, rfl⟩
    intro e he
    rw [hd]
    exact eraseP_forall_key hwf.1 hfind e he

theorem domain_remove_cpu_mon_found (domid : Nat → Int) (cpu : Nat)
    (doms : List RdtMonDomain) (d : RdtMonDomain)
    (hwf : MonWF doms) (hid : 0 ≤ domid cpu)
    (hfind : doms.find? (fun e => e.id == domid cpu) = some d) :
    (cpumask_clear_cpu cpu d.cpu_mask ≠ [] →
      { d with cpu_mask := cpumask_clear_cpu cpu d.cpu_mask } ∈
        (domain_remove_cpu_mon domid cpu doms).1) ∧
    (cpumask_clear_cpu cpu d.cpu_mask = [] →
      (∀ e ∈ (domain_remove_cpu_mon domid cpu doms).1, e.id ≠ d.id) ∧
      (domain_remove_cpu_mon domid cpu doms).2 =
        [.offlineMonHook (domid cpu), .syncRcu, .freeMon (domid cpu)]) := by
  have hd : d.id = domid cpu := by
    have h := List.find?_some hfind
    simpa using h
  simp only [domain_remove_cpu_mon]
  rw [if_neg (not_lt.mpr hid), hfind]
  dsimp only
  constructor
  · intro hne
    rw [if_neg (by simp [hne])]
    dsimp only
    exact find?_updateFirst_mem hfind
  · intro hnil
    rw [if_pos (by simp [hnil])]
    dsimp only
    refine ⟨?_, rfl⟩
    intro e he
    rw [hd]
    exact eraseP_forall_key hwf.1 hfind e he

/-! ## Claim theorems -/

/-- Claim C1, counterexample: the force-on override is not unconditional.
With an option table marking the mba flag force-on but hardware not
reporting the feature, rdt_cpu_has returns false, contradicting the claim
that a force-on feature reads true regardless of what the hardware reports.
A second defect at the same spot: with both force-off and force-on recorded
and hardware reporting the feature, the result is true, contradicting the
claim that force-off yields false regardless. -/
theorem rdt_cpu_has_force_on_cex :
    ((RdtOption.mk ['m', 'b', 'a'] X86_FEATURE_MBA false true).force_on = true ∧
      rdt_cpu_has [⟨['m', 'b', 'a'], X86_FEATURE_MBA, false, true⟩]
        (fun _ => false) X86_FEATURE_MBA = false) ∧
    ((RdtOption.mk ['m', 'b', 'a'] X86_FEATURE_MBA true true).force_off = true ∧
      rdt_cpu_has [⟨['m', 'b', 'a'], X86_FEATURE_MBA, true, true⟩]
        (fun _ => true) X86_FEATURE_MBA = true) := by
  refine ⟨⟨rfl, ?_⟩, ⟨rfl, ?_⟩⟩ <;> rfl

/-- Claim C1, amended: rdt_cpu_has returns false whenever the raw hardware
capability bit is false, regardless of any override; when hardware reports
the feature, a recorded force-on yields true (even if force-off is also
recorded), otherwise a recorded force-off yields false, otherwise the raw
hardware bit (true) is returned. -/
theorem rdt_cpu_has_precedence (opts : List RdtOption) (bch : Nat → Bool)
    (flag : Nat) :
    rdt_cpu_has opts bch flag =
      (bch flag &&
        match opts.find? (fun o => o.flag == flag) with
        | none => true
        | some o => o.force_on || !o.force_off) := by
  unfold rdt_cpu_has
  cases h : bch flag with
  | false => simp
  | true =>
    simp only [Bool.true_eq_false, if_false, Bool.true_and]
    cases hf : opts.find? (fun o => o.flag == flag) with
    | none => rfl
    | some o => cases ho : o.force_on <;> cases ho2 : o.force_off <;> simp [ho, ho2]

/-- Claim C4: for a requested bandwidth percentage bw, delay_bw_map returns
MAX_MBA_BW - bw with no warning when the delay encoding is linear (100%
maps to delay 0, 10% to delay 90), and returns the maximum throttling value
MAX_MBA_BW with the one-time warning when the encoding is non-linear. -/
theorem delay_bw_map_spec (bw : Nat) (h : bw ≤ MAX_MBA_BW) :
    delay_bw_map true bw = (MAX_MBA_BW - bw, false) ∧
    delay_bw_map true 100 = (0, false) ∧
    delay_bw_map true 10 = (90, false) ∧
    ∀ b, delay_bw_map false b = (MAX_MBA_BW, true) := by
  refine ⟨?_, by decide, by decide, fun b => rfl⟩
  have h' : bw ≤ 100 := h
  unfold delay_bw_map MAX_MBA_BW
  simp only [if_true, Prod.mk.injEq]
  exact ⟨by omega, trivial⟩

/-- Claim C4, witness at bw = 10. -/
theorem delay_bw_map_spec_w : delay_bw_map true 10 = (MAX_MBA_BW - 10, false) :=
  (delay_bw_map_spec 10 (by decide)).1

/-- Claim C8: the Haswell probe writes the all-ones 20-bit pattern
(hsw_max_cbm = 0xFFFFF) to the first L3 cache-mask register; if the write
faults or the value read back differs from the written pattern the state is
unchanged; only on an exact round trip does it mark L3 allocation capable
with 4 allocation classes, bitmask length 20 and minimum contiguous bits 2
(plus the fixed shareable-bit mask and sparse-bitmask flag). -/
theorem cache_alloc_hsw_probe_spec :
    hsw_max_cbm = 0xFFFFF ∧
    (∀ v s, cache_alloc_hsw_probe true v s = s) ∧
    (∀ v s, v ≠ hsw_max_cbm → cache_alloc_hsw_probe false v s = s) ∧
    (∀ s, cache_alloc_hsw_probe false hsw_max_cbm s =
      ⟨4, 20, 0xc0000, 2, false, true, true⟩) := by
  refine ⟨by decide, fun v s => rfl, fun v s hv => ?_, fun s => ?_⟩
  · unfold cache_alloc_hsw_probe
    rw [if_neg (by simp), if_pos hv]
  · unfold cache_alloc_hsw_probe
    rw [if_neg (by simp), if_neg (by simp)]

/-- Claim C8, witness: a read-back of 0 after a successful write leaves the
pristine state unchanged. -/
theorem cache_alloc_hsw_probe_spec_w :
    cache_alloc_hsw_probe false 0 ⟨0, 0, 0, 0, false, false, false⟩ =
      ⟨0, 0, 0, 0, false, false, false⟩ :=
  cache_alloc_hsw_probe_spec.2.2.1 0 ⟨0, 0, 0, 0, false, false, false⟩ (by decide)

/-- Claim C10: resctrl_arch_get_resource returns none for every level at or
beyond RDT_NUM_RESOURCES and the static table entry at exactly that index
otherwise; the static table has exactly RDT_NUM_RESOURCES entries, so no
lookup reads outside it. -/
theorem resctrl_arch_get_resource_spec :
    rdt_resources_all.length = RDT_NUM_RESOURCES ∧
    ∀ l : Nat,
      resctrl_arch_get_resource l =
        if h : l < RDT_NUM_RESOURCES then
          some (rdt_resources_all.get ⟨l, lt_of_lt_of_le h (by decide)⟩)
        else none := by
  refine ⟨rfl, fun l => ?_⟩
  by_cases h : l < RDT_NUM_RESOURCES
  · rw [dif_pos h]
    unfold resctrl_arch_get_resource
    rw [if_neg (not_le.mpr h)]
    rw [List.getElem?_eq_getElem (lt_of_lt_of_le h (by decide))]
    rfl
  · rw [dif_neg h]
    unfold resctrl_arch_get_resource
    rw [if_pos (not_lt.mp h)]

/-- Claim C9: parsing the configuration string "!l3cat,mba" records
force-off for the l3cat option and force-on for the mba option; with
hardware reporting every feature present the effective capability of l3cat
is then false and that of mba is true; a token matching no option name
leaves the table unchanged. -/
theorem set_rdt_options_l3cat_mba :
    ((set_rdt_options ['!', 'l', '3', 'c', 'a', 't', ',', 'm', 'b', 'a']
          rdt_options).find? (fun o => o.flag == X86_FEATURE_CAT_L3) =
        some ⟨['l', '3', 'c', 'a', 't'], X86_FEATURE_CAT_L3, true, false⟩ ∧
      (set_rdt_options ['!', 'l', '3', 'c', 'a', 't', ',', 'm', 'b', 'a']
          rdt_options).find? (fun o => o.flag == X86_FEATURE_MBA) =
        some ⟨['m', 'b', 'a'], X86_FEATURE_MBA, false, true⟩ ∧
      rdt_cpu_has
        (set_rdt_options ['!', 'l', '3', 'c', 'a', 't', ',', 'm', 'b', 'a'] rdt_options)
        (fun _ => true) X86_FEATURE_CAT_L3 = false ∧
      rdt_cpu_has
        (set_rdt_options ['!', 'l', '3', 'c', 'a', 't', ',', 'm', 'b', 'a'] rdt_options)
        (fun _ => true) X86_FEATURE_MBA = true) ∧
    (∀ (fo : Bool) (tok : List Char) (opts : List RdtOption),
      (∀ o ∈ opts, o.name ≠ tok) → applyTok fo tok opts = opts) := by
  constructor
  · exact ⟨by decide, by decide, by decide, by decide⟩
  · intro fo tok opts
    induction opts with
    | nil => intro _; rfl
    | cons o rest ih =>
      intro h
      unfold applyTok
      rw [if_neg (h o (List.mem_cons_self o rest)),
        ih (fun x hx => h x (List.mem_cons_of_mem o hx))]

/-- Claim C9, witness: the unmatched token "z" leaves the option table
unchanged. -/
theorem set_rdt_options_l3cat_mba_w :
    applyTok true ['z'] rdt_options = rdt_options :=
  set_rdt_options_l3cat_mba.2 true ['z'] rdt_options (by decide)

/-- Claim C7: when the add procedure finds an existing control domain for
the core's identity, every domain in the resulting list keeps its identity,
quota array and pseudo-lock flag, and at most gains the core in its member
set; if the core is already a member, the list is entirely unchanged. -/
theorem domain_add_cpu_ctrl_existing (r : RdtResource) (env : CtrlAddEnv)
    (cpu : Nat) (doms : List RdtCtrlDomain) (d : RdtCtrlDomain)
    (hid : 0 ≤ env.domid cpu)
    (hfind : doms.find? (fun e => e.id == env.domid cpu) = some d) :
    List.Forall₂
      (fun e0 e1 => e1.id = e0.id ∧ e1.ctrl_val = e0.ctrl_val ∧
        e1.has_plr = e0.has_plr ∧
        (e1.cpu_mask = e0.cpu_mask ∨ e1.cpu_mask = cpumask_set_cpu cpu e0.cpu_mask))
      doms (domain_add_cpu_ctrl r env cpu doms).1 ∧
    (cpu ∈ d.cpu_mask → (domain_add_cpu_ctrl r env cpu doms).1 = doms) := by
  simp only [domain_add_cpu_ctrl]
  rw [if_neg (not_lt.mpr hid), hfind]
  dsimp only
  constructor
  · exact forall₂_updateFirst (fun x => ⟨rfl, rfl, rfl, Or.inl rfl⟩)
      (fun x _ => ⟨rfl, rfl, rfl, Or.inr rfl⟩) doms
  · intro hcpu
    apply updateFirst_eq_self hfind
    show { d with cpu_mask := cpumask_set_cpu cpu d.cpu_mask } = d
    unfold cpumask_set_cpu
    rw [if_pos hcpu]

/-- Claim C7, witness: re-adding cpu 1, already sole member of domain 0,
changes nothing. -/
theorem domain_add_cpu_ctrl_existing_w :
    (domain_add_cpu_ctrl ⟨4, 20, 0, false, .bitmap, 0xc90, .cat, 0, false⟩
        ⟨fun _ => 0, true, true, true⟩ 1 [⟨0, [1], [0xFFFFF], false⟩]).1 =
      [⟨0, [1], [0xFFFFF], false⟩] :=
  (domain_add_cpu_ctrl_existing ⟨4, 20, 0, false, .bitmap, 0xc90, .cat, 0, false⟩
    ⟨fun _ => 0, true, true, true⟩ 1 [⟨0, [1], [0xFFFFF], false⟩]
    ⟨0, [1], [0xFFFFF], false⟩ (by decide) (by decide)).2 (by decide)

/-- Claim C5: when creation of a new control or monitor domain fails at the
quota-array / counter-array allocation or at the external online hook, the
resource's domain list ends up exactly as before and contains no entry for
the new identity: creation either completes fully or changes nothing. -/
theorem domain_add_rollback :
    (∀ (r : RdtResource) (env : CtrlAddEnv) (cpu : Nat) (doms : List RdtCtrlDomain),
      0 ≤ env.domid cpu →
      doms.find? (fun e => e.id == env.domid cpu) = none →
      (env.kzalloc_ok = false ∨ env.kmalloc_ok = false ∨ env.online_ok = false) →
      (domain_add_cpu_ctrl r env cpu doms).1 = doms ∧
      ∀ e ∈ (domain_add_cpu_ctrl r env cpu doms).1, e.id ≠ env.domid cpu) ∧
    (∀ (r : RdtResource) (env : MonAddEnv) (cpu : Nat) (doms : List RdtMonDomain),
      0 ≤ env.domid cpu →
      doms.find? (fun e => e.id == env.domid cpu) = none →
      (env.kzalloc_ok = false ∨ env.ci cpu = none ∨
        (env.mbm_total_enabled = true ∧ env.kcalloc_total_ok = false) ∨
        (env.mbm_local_enabled = true ∧ env.kcalloc_local_ok = false) ∨
        env.online_ok = false) →
      (domain_add_cpu_mon r env cpu doms).1 = doms ∧
      ∀ e ∈ (domain_add_cpu_mon r env cpu doms).1, e.id ≠ env.domid cpu) := by
  constructor
  · intro r env cpu doms hid hfind hfail
    have hnotin : ∀ e ∈ doms, e.id ≠ env.domid cpu := by
      intro e he heq
      exact List.find?_eq_none.mp hfind e he (by simp [heq])
    have hres : (domain_add_cpu_ctrl r env cpu doms).1 = doms := by
      simp only [domain_add_cpu_ctrl]
      rw [if_neg (not_lt.mpr hid), hfind]
      dsimp only
      by_cases hz : env.kzalloc_ok = false
      · rw [if_pos hz]
      · rw [if_neg hz]
        rcases hfail with hk | hk | hk
        · exact absurd hk hz
        · rw [show domain_setup_ctrlval r env.kmalloc_ok = none from by
            simp [domain_setup_ctrlval, hk]]
        · cases hsetup : domain_setup_ctrlval r env.kmalloc_ok with
          | none => rfl
          | some pr =>
            obtain ⟨dc, writes⟩ := pr
            dsimp only
            rw [if_neg (by simp [hk])]
            dsimp only
            exact eraseP_insertSortedBy (by simp)
              (fun e he => by simpa using hnotin e he)
    refine ⟨hres, ?_⟩
    rw [hres]
    exact hnotin
  · intro r env cpu doms hid hfind hfail
    have hnotin : ∀ e ∈ doms, e.id ≠ env.domid cpu := by
      intro e he heq
      exact List.find?_eq_none.mp hfind e he (by simp [heq])
    have hres : (domain_add_cpu_mon r env cpu doms).1 = doms := by
      simp only [domain_add_cpu_mon]
      rw [if_neg (not_lt.mpr hid), hfind]
      dsimp only
      by_cases hz : env.kzalloc_ok = false
      · rw [if_pos hz]
      · rw [if_neg hz]
        cases hci : env.ci cpu with
        | none => rfl
        | some ci_id =>
          dsimp only
          rcases hfail with hk | hk | hk | hk | hk
          · exact absurd hk hz
          · rw [hci] at hk; exact absurd hk (by simp)
          · rw [show arch_domain_mbm_alloc r.num_rmid env = none from by
              simp [arch_domain_mbm_alloc, hk.1, hk.2]]
          · rw [show arch_domain_mbm_alloc r.num_rmid env = none from by
              simp [arch_domain_mbm_alloc, hk.1, hk.2]]
          · cases hmbm : arch_domain_mbm_alloc r.num_rmid env with
            | none => rfl
            | some pr =>
              obtain ⟨tot, loc⟩ := pr
              dsimp only
              rw [if_neg (by simp [hk])]
              dsimp only
              exact eraseP_insertSortedBy (by simp)
                (fun e he => by simpa using hnotin e he)
    refine ⟨hres, ?_⟩
    rw [hres]
    exact hnotin

/-- Claim C5, witness: a failing online hook on a fresh control domain
leaves an empty registry empty. -/
theorem domain_add_rollback_w :
    (domain_add_cpu_ctrl ⟨4, 20, 0, false, .bitmap, 0xc90, .cat, 0, false⟩
        ⟨fun _ => 0, true, true, false⟩ 0 []).1 = [] :=
  (domain_add_rollback.1 ⟨4, 20, 0, false, .bitmap, 0xc90, .cat, 0, false⟩
    ⟨fun _ => 0, true, true, false⟩ 0 [] (by decide) rfl
    (Or.inr (Or.inr rfl))).1

/-- Claim C3: domain_setup_ctrlval builds a quota array of length exactly
num_closid with every entry the resource's default no-restriction value and
invokes the register programmer once over the full index range
[0, num_closid); the domain created for the first core of a new identity
carries exactly that array; for a 4-class cache resource with bit-length 20
the array is [0xFFFFF, 0xFFFFF, 0xFFFFF, 0xFFFFF] and four hardware writes
cover indices 0..4. -/
theorem domain_setup_ctrlval_defaults :
    (∀ r : RdtResource,
      domain_setup_ctrlval r true =
        some (setup_default_ctrlval r,
          msr_update r (setup_default_ctrlval r) 0 r.num_closid) ∧
      (setup_default_ctrlval r).length = r.num_closid ∧
      (∀ v ∈ setup_default_ctrlval r, v = resctrl_get_default_ctrl r) ∧
      (msr_update r (setup_default_ctrlval r) 0 r.num_closid).length = r.num_closid) ∧
    (∀ (r : RdtResource) (env : CtrlAddEnv) (cpu : Nat) (doms : List RdtCtrlDomain),
      0 ≤ env.domid cpu →
      doms.find? (fun e => e.id == env.domid cpu) = none →
      env.kzalloc_ok = true → env.kmalloc_ok = true → env.online_ok = true →
      (⟨env.domid cpu, cpumask_set_cpu cpu [], setup_default_ctrlval r, false⟩ :
        RdtCtrlDomain) ∈ (domain_add_cpu_ctrl r env cpu doms).1) ∧
    (domain_setup_ctrlval ⟨4, 20, 0, false, .bitmap, 0xc90, .cat, 0, false⟩ true =
      some ([0xFFFFF, 0xFFFFF, 0xFFFFF, 0xFFFFF],
        [(0xc90, 0xFFFFF), (0xc91, 0xFFFFF), (0xc92, 0xFFFFF), (0xc93, 0xFFFFF)])) := by
  refine ⟨?_, ?_, by decide⟩
  · intro r
    refine ⟨rfl, List.length_replicate _ _, ?_, ?_⟩
    · intro v hv
      exact List.eq_of_mem_replicate hv
    · cases hs : r.msr_strategy <;>
        simp [msr_update, cat_wrmsr, mba_wrmsr_intel, mba_wrmsr_amd, hs]
  · intro r env cpu doms hid hfind hz hkm hon
    simp only [domain_add_cpu_ctrl]
    rw [if_neg (not_lt.mpr hid), hfind]
    dsimp only
    rw [if_neg (by simp [hz])]
    rw [show domain_setup_ctrlval r env.kmalloc_ok =
        some (setup_default_ctrlval r,
          msr_update r (setup_default_ctrlval r) 0 r.num_closid) from by
      simp [domain_setup_ctrlval, hkm]]
    dsimp only
    rw [if_pos hon]
    dsimp only
    exact mem_insertSortedBy.mpr (Or.inl rfl)

/-- Claim C3, witness: the first core joining an empty registry creates the
domain with the default quota array. -/
theorem domain_setup_ctrlval_defaults_w :
    (⟨0, cpumask_set_cpu 0 [],
      setup_default_ctrlval ⟨4, 20, 0, false, .bitmap, 0xc90, .cat, 0, false⟩,
      false⟩ : RdtCtrlDomain) ∈
      (domain_add_cpu_ctrl ⟨4, 20, 0, false, .bitmap, 0xc90, .cat, 0, false⟩
        ⟨fun _ => 0, true, true, true⟩ 0 []).1 :=
  domain_setup_ctrlval_defaults.2.1 ⟨4, 20, 0, false, .bitmap, 0xc90, .cat, 0, false⟩
    ⟨fun _ => 0, true, true, true⟩ 0 [] (by decide) rfl rfl rfl rfl

/-- Claim C2: the add and remove operations preserve the registry invariant
that every linked control or monitor domain has a unique identity and a
non-empty member-core set; removing a core that leaves the member set
non-empty keeps the domain linked with just that core gone, while removing
the last member unlinks the domain (no entry with its identity remains) and
emits the offline hook, the RCU grace-period wait and the reclaim, in that
order; concretely, with cores 0 and 1 sharing domain 0, removing core 1
keeps the domain with member set {0} and removing core 0 afterwards empties
the list, with teardown events offline-hook, grace period, free. -/
theorem domain_existence_invariant :
    (∀ (r : RdtResource) (env : CtrlAddEnv) (cpu : Nat) (doms : List RdtCtrlDomain),
      CtrlWF doms → CtrlWF (domain_add_cpu_ctrl r env cpu doms).1) ∧
    (∀ (domid : Nat → Int) (cpu : Nat) (doms : List RdtCtrlDomain),
      CtrlWF doms → CtrlWF (domain_remove_cpu_ctrl domid cpu doms).1) ∧
    (∀ (r : RdtResource) (env : MonAddEnv) (cpu : Nat) (doms : List RdtMonDomain),
      MonWF doms → MonWF (domain_add_cpu_mon r env cpu doms).1) ∧
    (∀ (domid : Nat → Int) (cpu : Nat) (doms : List RdtMonDomain),
      MonWF doms → MonWF (domain_remove_cpu_mon domid cpu doms).1) ∧
    (∀ (domid : Nat → Int) (cpu : Nat) (doms : List RdtCtrlDomain) (d : RdtCtrlDomain),
      CtrlWF doms → 0 ≤ domid cpu →
      doms.find? (fun e => e.id == domid cpu) = some d →
      (cpumask_clear_cpu cpu d.cpu_mask ≠ [] →
        { d with cpu_mask := cpumask_clear_cpu cpu d.cpu_mask } ∈
          (domain_remove_cpu_ctrl domid cpu doms).1) ∧
      (cpumask_clear_cpu cpu d.cpu_mask = [] →
        (∀ e ∈ (domain_remove_cpu_ctrl domid cpu doms).1, e.id ≠ d.id) ∧
        (domain_remove_cpu_ctrl domid cpu doms).2 =
          [.offlineCtrlHook (domid cpu), .syncRcu] ++
            (if d.has_plr then [.clearPlr (domid cpu)] else []) ++
            [.freeCtrl (domid cpu)])) ∧
    (∀ (domid : Nat → Int) (cpu : Nat) (doms : List RdtMonDomain) (d : RdtMonDomain),
      MonWF doms → 0 ≤ domid cpu →
      doms.find? (fun e => e.id == domid cpu) = some d →
      (cpumask_clear_cpu cpu d.cpu_mask ≠ [] →
        { d with cpu_mask := cpumask_clear_cpu cpu d.cpu_mask } ∈
          (domain_remove_cpu_mon domid cpu doms).1) ∧
      (cpumask_clear_cpu cpu d.cpu_mask = [] →
        (∀ e ∈ (domain_remove_cpu_mon domid cpu doms).1, e.id ≠ d.id) ∧
        (domain_remove_cpu_mon domid cpu doms).2 =
          [.offlineMonHook (domid cpu), .syncRcu, .freeMon (domid cpu)])) ∧
    (domain_remove_cpu_ctrl (fun _ => 0) 1
        [⟨0, [0, 1], [0xFFFFF, 0xFFFFF, 0xFFFFF, 0xFFFFF], false⟩] =
      ([⟨0, [0], [0xFFFFF, 0xFFFFF, 0xFFFFF, 0xFFFFF], false⟩], []) ∧
     domain_remove_cpu_ctrl (fun _ => 0) 0
        [⟨0, [0], [0xFFFFF, 0xFFFFF, 0xFFFFF, 0xFFFFF], false⟩] =
      ([], [.offlineCtrlHook 0, .syncRcu, .freeCtrl 0])) :=
  ⟨domain_add_cpu_ctrl_WF, domain_remove_cpu_ctrl_WF, domain_add_cpu_mon_WF,
    domain_remove_cpu_mon_WF, domain_remove_cpu_ctrl_found,
    domain_remove_cpu_mon_found, by decide, by decide⟩

/-- Claim C2, witness: removing core 1 from domain 0 shared with core 0
keeps the domain linked with core 1 cleared from its member set. -/
theorem domain_existence_invariant_w :
    ({ (⟨0, [0, 1], [], false⟩ : RdtCtrlDomain) with
        cpu_mask := cpumask_clear_cpu 1 [0, 1] } ∈
      (domain_remove_cpu_ctrl (fun _ => 0) 1 [⟨0, [0, 1], [], false⟩]).1) :=
  (domain_existence_invariant.2.2.2.2.1 (fun _ => 0) 1 [⟨0, [0, 1], [], false⟩]
    ⟨0, [0, 1], [], false⟩ (by decide) (by decide) (by decide)).1 (by decide)

/-- Claim C6: coming online, the trace is the writer lock, the domain-add
steps for exactly the capable resources, the unlock, the tracking-state
reset with its association-register write of the reserved values, and last
the external per-core online hook; going offline, the external per-core
offline hook comes first, then lock, the domain-remove steps, unlock, and
the identical tracking-state reset; both paths leave the per-cpu tracking
state at the reserved closid/rmid values. -/
theorem hotplug_ordering (rs : List ResCap) (cpu : Nat) (s : PqrState) :
    (resctrl_arch_online_cpu rs cpu s).2 =
      [.lock] ++ concatMapEv (domain_add_cpu_ev cpu) (for_each_capable rs) ++
        [.unlock] ++ (clear_closid_rmid s).2 ++ [.onlineHook cpu] ∧
    (∀ e ∈ concatMapEv (domain_add_cpu_ev cpu) (for_each_capable rs),
      e.isDomainAdd = true) ∧
    (resctrl_arch_offline_cpu rs cpu s).2 =
      [.offlineHook cpu, .lock] ++
        concatMapEv (domain_remove_cpu_ev cpu) (for_each_capable rs) ++
        [.unlock] ++ (clear_closid_rmid s).2 ∧
    (∀ e ∈ concatMapEv (domain_remove_cpu_ev cpu) (for_each_capable rs),
      e.isDomainRemove = true) ∧
    (resctrl_arch_online_cpu rs cpu s).1 = (resctrl_arch_offline_cpu rs cpu s).1 ∧
    (resctrl_arch_online_cpu rs cpu s).1 =
      ⟨RESCTRL_RESERVED_CLOSID, RESCTRL_RESERVED_RMID,
        RESCTRL_RESERVED_CLOSID, RESCTRL_RESERVED_RMID⟩ ∧
    (clear_closid_rmid s).2 =
      [.wrmsrPqr RESCTRL_RESERVED_RMID RESCTRL_RESERVED_CLOSID] := by
  have hadd : ∀ (l : List ResCap) (e : HpEv),
      e ∈ concatMapEv (domain_add_cpu_ev cpu) l → e.isDomainAdd = true := by
    intro l
    induction l with
    | nil => intro e he; simp [concatMapEv] at he
    | cons x xs ih =>
      intro e he
      rcases List.mem_append.mp he with he | he
      · unfold domain_add_cpu_ev at he
        rcases List.mem_append.mp he with h | h <;> split at h <;>
          first
          | (rw [List.mem_singleton.mp h]; rfl)
          | exact absurd h (List.not_mem_nil e)
      · exact ih e he
  have hrem : ∀ (l : List ResCap) (e : HpEv),
      e ∈ concatMapEv (domain_remove_cpu_ev cpu) l → e.isDomainRemove = true := by
    intro l
    induction l with
    | nil => intro e he; simp [concatMapEv] at he
    | cons x xs ih =>
      intro e he
      rcases List.mem_append.mp he with he | he
      · unfold domain_remove_cpu_ev at he
        rcases List.mem_append.mp he with h | h <;> split at h <;>
          first
          | (rw [List.mem_singleton.mp h]; rfl)
          | exact absurd h (List.not_mem_nil e)
      · exact ih e he
  refine ⟨?_, hadd (for_each_capable rs), ?_, hrem (for_each_capable rs),
    rfl, rfl, rfl⟩
  · simp [resctrl_arch_online_cpu, clear_closid_rmid]
  · simp [resctrl_arch_offline_cpu, clear_closid_rmid]

end Resctrl
